import Mathlib

/-! Shallow embedding of the LINSTOR CSI client translation layer
(pkg/client/linstor.go): resource-name canonicalization, capacity rounding,
volume-to-deployment-config translation, the annotation codec, and the
lookup operations over a backend listing. -/

/-- Constant set by NewLinstor: the key under which the serialized volume
record is stored in the deployment-config annotations. -/
def annotationsKey : String := "csi-volume-annotations"

/-- Constant set by NewLinstor: the string prepended to a query name as the
fallback during lookup, and to generated fallback volume names. -/
def fallbackPref : String := "csi-"

/-- Character class A-Za-z, the alphabetic test of validResourceName. -/
def isAlphaChar (c : Char) : Bool :=
  ('A' ≤ c && c ≤ 'Z') || ('a' ≤ c && c ≤ 'z')

/-- Character class of A-Z, a-z, 0-9, hyphen and underscore from the LINSTOR
name grammar (the body characters of the anchored regular expression in
validResourceName, and the characters linstorifyResourceName keeps). -/
def isNameBodyChar (c : Char) : Bool :=
  isAlphaChar c || ('0' ≤ c && c ≤ '9') || c = '-' || c = '_'

/-- Character class of A-Z, a-z and underscore: the legal first character of
a LINSTOR resource name. -/
def isNameHeadChar (c : Char) : Bool :=
  isAlphaChar c || c = '_'

/-- Matching of the anchored regular expression in validResourceName: a head
character followed by 1 to 47 body characters. -/
def matchesNameGrammar (s : String) : Bool :=
  match s.data with
  | [] => false
  | c :: rest =>
    isNameHeadChar c && decide (1 ≤ rest.length) && decide (rest.length ≤ 47)
      && rest.all isNameBodyChar

/-- Embedding of validResourceName: true exactly when the Go function returns
a nil error — the name is not the reserved literal all, contains at least one
alphabetic character, and matches the name grammar. -/
def validResourceName (resName : String) : Bool :=
  if resName = "all" then false
  else if !(resName.data.any isAlphaChar) then false
  else matchesNameGrammar resName

/-- Substitution step of linstorifyResourceName: every character outside the
body class is replaced by an underscore (ReplaceAllLiteralString). -/
def substituteName (name : String) : String :=
  String.mk (name.data.map fun c => if isNameBodyChar c then c else '_')

/-- Embedding of linstorifyResourceName: return the name unchanged if it is
already valid; otherwise substitute every character outside the body class by
an underscore; otherwise additionally prepend LS_; otherwise fail. -/
def linstorifyResourceName (name : String) : Except String String :=
  if validResourceName name then .ok name
  else if validResourceName (substituteName name) then .ok (substituteName name)
  else if validResourceName ("LS_" ++ substituteName name) then
    .ok ("LS_" ++ substituteName name)
  else .error ("Could not linstorify name " ++ name)

/-- Error outcomes of AllocationSizeKiB: the minimum volume size exceeds the
limit, or the rounded allocation exceeds the limit. -/
inductive CapacityError
  | minExceedsLimit
  | overLimit
deriving DecidableEq

/-- Rounded allocation computed by AllocationSizeKiB: clamp the request up to
the 4096-byte minimum, then take the least whole number of KiB containing the
requested bytes (data.NewKibiByte(requestedSize).InclusiveBytes(), e.g. 1025
bytes need 2 KiB). -/
def roundedAllocationKiB (requiredBytes : Int) : Int :=
  let requestedSize : Int := if requiredBytes < 4096 then 4096 else requiredBytes
  ((requestedSize.toNat + 1023) / 1024 : Nat)

/-- Embedding of AllocationSizeKiB. The int64 result is paired with the error
outcome; the rounded size accompanies the over-limit error, matching the Go
return of the value next to a non-nil error. Byte quantities are modelled as
exact integers. A zero limit means unlimited. -/
def allocationSizeKiB (requiredBytes limitBytes : Int) : Int × Option CapacityError :=
  if 4096 > limitBytes ∧ limitBytes ≠ 0 then (0, some .minExceedsLimit)
  else if roundedAllocationKiB requiredBytes * 1024 > limitBytes ∧ limitBytes ≠ 0 then
    (roundedAllocationKiB requiredBytes, some .overLimit)
  else (roundedAllocationKiB requiredBytes, none)

/-- Modelled from the spec: the canonical volume record volume.Info (the
pkg/volume package is not part of the source tree; the spec fixes its fields
as ID, Name, SizeBytes and Parameters). Parameters are an association list:
the iteration order of the Go map is taken as given by the list order. -/
structure VolumeInfo where
  id : String
  name : String
  sizeBytes : Int
  parameters : List (String × String)
deriving DecidableEq

/-- Modelled from the spec: the value held by a backend property. The codec
(json.Marshal and json.Unmarshal of volume.Info, whose struct tags live in
the pkg/volume package outside the source tree) is modelled abstractly: a
property value is either the serialization of a volume record — which the
spec states is fully reconstructable — or some other string. -/
inductive PropValue
  | vol (v : VolumeInfo)
  | raw (s : String)
deriving DecidableEq

/-- Modelled from the spec: json.Unmarshal of an annotation value into a
volume.Info record; it succeeds exactly on values serialized from a volume
record and recovers that record in full. -/
def unmarshalVolumeInfo : PropValue → Except String VolumeInfo
  | .vol v => .ok v
  | .raw _ => .error "failed to unmarshal annotations for ResDef"

/-- One key-value property of a backend resource definition (lc.ResDef). -/
structure ResDefProp where
  key : String
  value : PropValue
deriving DecidableEq

/-- A backend resource definition as consumed from ListResourceDefinitions:
its resource name and its property list. -/
structure ResDef where
  rscName : String
  rscDfnProps : List ResDefProp
deriving DecidableEq

/-- Loop of resDefToVolume over the property list: the first property whose
key is Aux/ followed by the annotations key is unmarshalled; a deserialized
volume with an empty Name is an error; a list without the key yields none. -/
def findAnnotatedVolume : List ResDefProp → Except String (Option VolumeInfo)
  | [] => .ok none
  | p :: rest =>
    if p.key = "Aux/" ++ annotationsKey then
      match unmarshalVolumeInfo p.value with
      | .error e => .error e
      | .ok vol =>
        if vol.name = "" then .error "Failed to extract resource name"
        else .ok (some vol)
    else findAnnotatedVolume rest

/-- Embedding of resDefToVolume. -/
def resDefToVolume (resDef : ResDef) : Except String (Option VolumeInfo) :=
  findAnnotatedVolume resDef.rscDfnProps

/-- Parameter-map keys recognized by the translation (constants block of the
source file). -/
def NodeListKey : String := "nodelist"

def LayerListKey : String := "layerlist"

def ClientListKey : String := "clientlist"

def ReplicasOnSameKey : String := "replicasonsame"

def ReplicasOnDifferentKey : String := "replicasondifferent"

def AutoPlaceKey : String := "autoplace"

def DoNotPlaceWithRegexKey : String := "donotplacewithregex"

def StoragePoolKey : String := "storagepool"

def DisklessStoragePoolKey : String := "disklessstoragepool"

def EncryptionKey : String := "encryption"

/-- Embedding of lc.ResourceDeploymentConfig restricted to the fields this
source file sets (logging and controller plumbing omitted). -/
structure ResourceDeploymentConfig where
  name : String := ""
  sizeKiB : Nat := 0
  nodeList : List String := []
  layerList : List String := []
  clientList : List String := []
  replicasOnSame : List String := []
  replicasOnDifferent : List String := []
  storagePool : String := ""
  disklessStoragePool : String := ""
  autoPlace : Nat := 0
  doNotPlaceWithRegex : String := ""
  encryption : Bool := false
  annotations : List (String × PropValue) := []
deriving DecidableEq

/-- Decimal digit test of strconv.ParseUint with base 10. -/
def isDigitChar (c : Char) : Bool := '0' ≤ c && c ≤ '9'

/-- Numeric value of a decimal digit list. -/
def decimalValue (l : List Char) : Nat :=
  l.foldl (fun acc c => acc * 10 + (c.toNat - '0'.toNat)) 0

/-- Embedding of strconv.ParseUint(v, 10, 64): a nonempty all-digit string
whose value fits in 64 bits parses to that value; anything else errors. -/
def parseUint64 (s : String) : Except String Nat :=
  if s ≠ "" ∧ s.data.all isDigitChar then
    let n := decimalValue s.data
    if n < 2 ^ 64 then .ok n else .error "value out of range"
  else .error "invalid syntax"

/-- Embedding of strings.ToLower restricted to ASCII case folding (every
recognized parameter key and the encryption value are ASCII). -/
def toLowerStr (s : String) : String := String.mk (s.data.map Char.toLower)

/-- One iteration of the parameter switch in resDeploymentConfigFromVolumeInfo:
the key is lowercased, list values are split on single spaces, an empty
auto-place value defaults to 0 and a non-numeric one is an error, encryption
turns on only for a case-insensitive true, and unrecognized keys are ignored. -/
def applyParam (cfg : ResourceDeploymentConfig) (kv : String × String) :
    Except String ResourceDeploymentConfig :=
  if toLowerStr kv.1 = NodeListKey then .ok { cfg with nodeList := kv.2.splitOn " " }
  else if toLowerStr kv.1 = LayerListKey then .ok { cfg with layerList := kv.2.splitOn " " }
  else if toLowerStr kv.1 = ReplicasOnSameKey then
    .ok { cfg with replicasOnSame := kv.2.splitOn " " }
  else if toLowerStr kv.1 = ReplicasOnDifferentKey then
    .ok { cfg with replicasOnDifferent := kv.2.splitOn " " }
  else if toLowerStr kv.1 = StoragePoolKey then .ok { cfg with storagePool := kv.2 }
  else if toLowerStr kv.1 = DisklessStoragePoolKey then .ok { cfg with disklessStoragePool := kv.2 }
  else if toLowerStr kv.1 = AutoPlaceKey then
    match parseUint64 (if kv.2 = "" then "0" else kv.2) with
    | .error _ => .error ("unable to parse as an integer: " ++ kv.2)
    | .ok autoplace => .ok { cfg with autoPlace := autoplace }
  else if toLowerStr kv.1 = DoNotPlaceWithRegexKey then .ok { cfg with doNotPlaceWithRegex := kv.2 }
  else if toLowerStr kv.1 = EncryptionKey then
    if toLowerStr kv.2 = "true" then .ok { cfg with encryption := true } else .ok cfg
  else .ok cfg

/-- Base deployment config of resDeploymentConfigFromVolumeInfo before the
parameter switch: the volume ID becomes the resource name and SizeKiB is
uint64(vol.SizeBytes/1024 + 1) — Go truncating division followed by the
uint64 conversion (wrap-around modulo 2^64). -/
def baseConfigOf (vol : VolumeInfo) : ResourceDeploymentConfig :=
  { name := vol.id,
    sizeKiB := ((Int.tdiv vol.sizeBytes 1024 + 1) % (2 : Int) ^ 64).toNat }

/-- Parameter fold and annotation embedding of
resDeploymentConfigFromVolumeInfo: the parameter map is folded through the
switch starting from the base config, then the serialized volume is stored
as the single annotation entry under the annotations key. -/
def resDeploymentConfigFromVolumeInfo (vol : VolumeInfo) :
    Except String ResourceDeploymentConfig :=
  match vol.parameters.foldlM applyParam (baseConfigOf vol) with
  | .error e => .error e
  | .ok cfg => .ok { cfg with annotations := [(annotationsKey, PropValue.vol vol)] }

/-- Embedding of ListAll: the Go body is literally return nil, nil, so the
embedding takes no backend state. -/
def ListAll (parameters : List (String × String)) :
    Option (List VolumeInfo) × Option String :=
  (none, none)

/-- Embedding of GetByName over an explicit backend listing (the Go method
fetches the listing from ListResourceDefinitions): propagate decode errors,
skip resources that decode to none, return the first decoded volume whose
name equals the query or the query behind the csi- fallback, and none with
no error when the listing is exhausted. -/
def GetByName (list : List ResDef) (name : String) : Except String (Option VolumeInfo) :=
  match list with
  | [] => .ok none
  | rd :: rest =>
    match resDefToVolume rd with
    | .error e => .error e
    | .ok none => GetByName rest name
    | .ok (some vol) =>
      if vol.name = name then .ok (some vol)
      else if vol.name = fallbackPref ++ name then .ok (some vol)
      else GetByName rest name

/-- Possible outcomes of GetByID: a normal result, a propagated decode error,
or the run-time panic from dereferencing a nil volume pointer. -/
inductive GetByIDResult
  | found (v : Option VolumeInfo)
  | failed (e : String)
  | nilDeref
deriving DecidableEq

/-- Embedding of GetByID: the backend resource name is compared first; then,
with no nil check, the comparison vol.ID == ID is evaluated — when the
resource decoded to none (no annotations key) this is Go dereferencing a nil
pointer, modelled by the nilDeref outcome. -/
def GetByID (list : List ResDef) (id : String) : GetByIDResult :=
  match list with
  | [] => .found none
  | rd :: rest =>
    match resDefToVolume rd with
    | .error e => .failed e
    | .ok vol =>
      if rd.rscName = id then .found vol
      else
        match vol with
        | none => .nilDeref
        | some v => if v.id = id then .found (some v) else GetByID rest id

/-- Wrapping of deployment-config annotations into the backend resource
definition properties: LINSTOR stores each annotation under Aux/ followed by
its key, which is the key resDefToVolume scans for. -/
def propertiesContaining (anns : List (String × PropValue)) : List ResDefProp :=
  anns.map fun kv => { key := "Aux/" ++ kv.1, value := kv.2 }

/-- Encode-then-decode pipeline: build the deployment config of a volume and
decode a resource definition carrying exactly its annotation entries. -/
def roundTripVolume (vol : VolumeInfo) : Except String (Option VolumeInfo) :=
  match resDeploymentConfigFromVolumeInfo vol with
  | .error e => .error e
  | .ok cfg =>
    resDefToVolume { rscName := vol.id, rscDfnProps := propertiesContaining cfg.annotations }

/-- SizeKiB recorded in the deployment config generated for a volume, when
the translation succeeds. -/
def sizeKiBOf (vol : VolumeInfo) : Option Nat :=
  match resDeploymentConfigFromVolumeInfo vol with
  | .ok cfg => some cfg.sizeKiB
  | .error _ => none

/-- Helper: every name returned by linstorifyResourceName passes
validResourceName, because each success branch is guarded by that check. -/
theorem linstorify_returns_valid (s r : String) (h : linstorifyResourceName s = .ok r) :
    validResourceName r = true := by
  unfold linstorifyResourceName at h
  split at h
  next hv => obtain rfl := Except.ok.inj h; exact hv
  next =>
    split at h
    next hv2 => obtain rfl := Except.ok.inj h; exact hv2
    next =>
      split at h
      next hv3 => obtain rfl := Except.ok.inj h; exact hv3
      next => exact Except.noConfusion h

/-- C10: ListAll returns nil volumes and nil error for every parameters map;
it consults no backend state at all (its embedding takes none). -/
theorem c10_listAll_nil (parameters : List (String × String)) :
    ListAll parameters = (none, none) := rfl

/-- C2: counterexample — AllocationSizeKiB(1025, 0) succeeds but allocates
4 KiB, not the claimed 2: the 4096-byte minimum is applied before the ceiling
rounding even in the unlimited case. -/
theorem c2_counterexample :
    allocationSizeKiB 1025 0 = (4, none) ∧ (4 : Int) ≠ 2 := by
  exact ⟨rfl, by decide⟩

/-- C2 (amended): AllocationSizeKiB(1025, 0) succeeds and allocates 4 KiB
because the request is first clamped to the 4096-byte minimum and then
ceiling-rounded; AllocationSizeKiB(100, 4096) succeeds and returns the
4096-byte minimum (4 KiB); AllocationSizeKiB(5000, 4096) fails with the
capacity error for a rounded allocation (5 KiB) exceeding the limit. -/
theorem c2_amended :
    allocationSizeKiB 1025 0 = (4, none) ∧
      allocationSizeKiB 100 4096 = (4, none) ∧
      allocationSizeKiB 5000 4096 = (5, some CapacityError.overLimit) :=
  ⟨rfl, rfl, rfl⟩

/-- C3: counterexample — neither the reserved literal all nor the empty
string is rejected by linstorifyResourceName: both succeed through the LS_
fallback step, returning LS_all and LS_ respectively. -/
theorem c3_counterexample :
    linstorifyResourceName "all" = Except.ok "LS_all" ∧
      linstorifyResourceName "" = Except.ok "LS_" :=
  ⟨rfl, rfl⟩

/-- C3 (amended): the validity check validResourceName rejects the reserved
and the empty input, but the canonicalizer linstorifyResourceName accepts
both by prepending LS_ in its fallback step. -/
theorem c3_amended :
    validResourceName "all" = false ∧ validResourceName "" = false ∧
      linstorifyResourceName "all" = Except.ok "LS_all" ∧
      linstorifyResourceName "" = Except.ok "LS_" :=
  ⟨rfl, rfl, rfl, rfl⟩

/-- C5: canonicalization is idempotent — whenever linstorifyResourceName
succeeds, running it again on the result succeeds and returns the result
unchanged. -/
theorem c5_linstorify_idempotent (s r : String) (h : linstorifyResourceName s = .ok r) :
    linstorifyResourceName r = .ok r := by
  have hv := linstorify_returns_valid s r h
  unfold linstorifyResourceName
  simp [hv]

/-- Witness for C5 at the concrete input my.vol, which canonicalizes to
my_vol; re-canonicalizing is the identity. -/
theorem c5_witness :
    linstorifyResourceName "my.vol" = Except.ok "my_vol" ∧
      linstorifyResourceName "my_vol" = Except.ok "my_vol" :=
  ⟨rfl, c5_linstorify_idempotent "my.vol" "my_vol" rfl⟩

/-- C7: AllocationSizeKiB errors exactly when the limit is not unlimited and
either the 4096-byte minimum exceeds it (returning 0 with the minimum-exceeds
error) or the rounded allocation exceeds it (still returning the rounded
size alongside the over-limit error); in all other cases it returns the
rounded allocation with no error. -/
theorem c7_allocationSizeKiB_error_iff (requiredBytes limitBytes : Int) :
    allocationSizeKiB requiredBytes limitBytes =
      if limitBytes ≠ 0 ∧ 4096 > limitBytes then (0, some CapacityError.minExceedsLimit)
      else if limitBytes ≠ 0 ∧ roundedAllocationKiB requiredBytes * 1024 > limitBytes then
        (roundedAllocationKiB requiredBytes, some CapacityError.overLimit)
      else (roundedAllocationKiB requiredBytes, none) := by
  unfold allocationSizeKiB
  split_ifs <;> first | rfl | tauto

set_option maxHeartbeats 1000000 in
/-- Helper: the parameter switch never modifies the SizeKiB field. -/
theorem applyParam_sizeKiB (cfg : ResourceDeploymentConfig) (kv : String × String)
    (cfg' : ResourceDeploymentConfig) (h : applyParam cfg kv = .ok cfg') :
    cfg'.sizeKiB = cfg.sizeKiB := by
  unfold applyParam at h
  cases hp : parseUint64 (if kv.2 = "" then "0" else kv.2) with
  | error e =>
    rw [hp] at h
    split_ifs at h <;>
      first
        | (obtain rfl := Except.ok.inj h; rfl)
        | exact Except.noConfusion h
  | ok n =>
    rw [hp] at h
    split_ifs at h <;> (obtain rfl := Except.ok.inj h; rfl)

/-- Helper: folding the parameter switch over a parameter list never modifies
the SizeKiB field. -/
theorem foldlM_applyParam_sizeKiB (ps : List (String × String))
    (cfg cfg' : ResourceDeploymentConfig) (h : ps.foldlM applyParam cfg = .ok cfg') :
    cfg'.sizeKiB = cfg.sizeKiB := by
  induction ps generalizing cfg with
  | nil =>
    simp only [List.foldlM_nil] at h
    obtain rfl := Except.ok.inj h
    rfl
  | cons p ps ih =>
    simp only [List.foldlM_cons] at h
    cases hap : applyParam cfg p with
    | error e => rw [hap] at h; exact Except.noConfusion h
    | ok cfg1 =>
      rw [hap] at h
      exact (ih cfg1 h).trans (applyParam_sizeKiB cfg p cfg1 hap)

/-- Helper: the annotations of a successfully generated deployment config are
exactly the single serialized-volume entry under the annotations key. -/
theorem config_annotations (vol : VolumeInfo) (cfg : ResourceDeploymentConfig)
    (h : resDeploymentConfigFromVolumeInfo vol = .ok cfg) :
    cfg.annotations = [(annotationsKey, PropValue.vol vol)] := by
  unfold resDeploymentConfigFromVolumeInfo at h
  cases hf : vol.parameters.foldlM applyParam (baseConfigOf vol) with
  | error e => rw [hf] at h; exact Except.noConfusion h
  | ok cfg1 => rw [hf] at h; obtain rfl := Except.ok.inj h; rfl

/-- C4: counterexample — for SizeBytes = 1024 the generated deployment config
records SizeKiB = 2 while the ceiling of 1024/1024 is 1: the translation adds
one KiB even when no remainder would be dropped. -/
theorem c4_counterexample :
    sizeKiBOf { id := "v", name := "v", sizeBytes := 1024, parameters := [] } = some 2 ∧
      ((1024 : Nat) + 1023) / 1024 = 1 :=
  ⟨rfl, rfl⟩

/-- C4 (amended): for every volume whose translation succeeds, the deployment
config's SizeKiB is SizeBytes/1024 + 1 under Go truncating division and the
uint64 conversion — one more KiB than the ceiling whenever 1024 divides a
nonnegative SizeBytes, the ceiling itself otherwise. -/
theorem c4_amended (vol : VolumeInfo) (cfg : ResourceDeploymentConfig)
    (h : resDeploymentConfigFromVolumeInfo vol = .ok cfg) :
    cfg.sizeKiB = ((Int.tdiv vol.sizeBytes 1024 + 1) % (2 : Int) ^ 64).toNat := by
  unfold resDeploymentConfigFromVolumeInfo at h
  cases hf : vol.parameters.foldlM applyParam (baseConfigOf vol) with
  | error e => rw [hf] at h; exact Except.noConfusion h
  | ok cfg1 =>
    rw [hf] at h
    obtain rfl := Except.ok.inj h
    show cfg1.sizeKiB = _
    rw [foldlM_applyParam_sizeKiB vol.parameters (baseConfigOf vol) cfg1 hf]
    rfl

/-- Concrete volume for the C4 witness. -/
def c4Vol : VolumeInfo := { id := "v", name := "v", sizeBytes := 1025, parameters := [] }

/-- Deployment config generated for c4Vol. -/
def c4Cfg : ResourceDeploymentConfig :=
  { name := "v", sizeKiB := 2, annotations := [(annotationsKey, PropValue.vol c4Vol)] }

/-- Witness for C4 at the concrete volume of 1025 bytes, whose config records
2 KiB. -/
theorem c4_witness :
    resDeploymentConfigFromVolumeInfo c4Vol = Except.ok c4Cfg ∧
      c4Cfg.sizeKiB = ((Int.tdiv c4Vol.sizeBytes 1024 + 1) % (2 : Int) ^ 64).toNat :=
  ⟨rfl, c4_amended c4Vol c4Cfg rfl⟩

/-- C1: counterexample — a volume whose Name is empty encodes successfully
into the annotation entry, but decoding the properties containing it is an
error, not the original volume: the round trip fails field-for-field. -/
theorem c1_counterexample :
    roundTripVolume { id := "vol1", name := "", sizeBytes := 4096, parameters := [] } =
        Except.error "Failed to extract resource name" ∧
      roundTripVolume { id := "vol1", name := "", sizeBytes := 4096, parameters := [] } ≠
        Except.ok (some { id := "vol1", name := "", sizeBytes := 4096, parameters := [] }) :=
  ⟨rfl, fun h => Except.noConfusion h⟩

/-- C1 (amended): for every volume with a nonempty Name whose config
translation succeeds, decoding resource-definition properties containing the
produced annotation entry yields exactly that volume — ID, Name, SizeBytes
and Parameters included. -/
theorem c1_amended (vol : VolumeInfo) (cfg : ResourceDeploymentConfig)
    (hok : resDeploymentConfigFromVolumeInfo vol = .ok cfg) (hname : vol.name ≠ "") :
    roundTripVolume vol = .ok (some vol) := by
  unfold roundTripVolume
  rw [hok]
  show findAnnotatedVolume (propertiesContaining cfg.annotations) = .ok (some vol)
  rw [config_annotations vol cfg hok]
  simp [propertiesContaining, findAnnotatedVolume, unmarshalVolumeInfo, hname]

/-- Concrete volume for the C1 witness. -/
def c1Vol : VolumeInfo :=
  { id := "csi-myvol", name := "myvol", sizeBytes := 1048576,
    parameters := [("storagepool", "pool0")] }

/-- Deployment config generated for c1Vol. -/
def c1Cfg : ResourceDeploymentConfig :=
  { name := "csi-myvol", sizeKiB := 1025, storagePool := "pool0",
    annotations := [(annotationsKey, PropValue.vol c1Vol)] }

/-- Witness for C1 at a concrete volume with nonempty Name: the round trip
returns it unchanged. -/
theorem c1_witness :
    resDeploymentConfigFromVolumeInfo c1Vol = Except.ok c1Cfg ∧ c1Vol.name ≠ "" ∧
      roundTripVolume c1Vol = Except.ok (some c1Vol) :=
  ⟨by rfl, by decide, c1_amended c1Vol c1Cfg (by rfl) (by decide)⟩

/-- Helper: a property list without the Aux annotations key decodes to none
with no error. -/
theorem findAnnotatedVolume_none (l : List ResDefProp)
    (h : ∀ p ∈ l, p.key ≠ "Aux/" ++ annotationsKey) :
    findAnnotatedVolume l = .ok none := by
  induction l with
  | nil => rfl
  | cons p rest ih =>
    simp only [findAnnotatedVolume]
    rw [if_neg (h p (List.mem_cons_self p rest))]
    exact ih fun q hq => h q (List.mem_cons_of_mem p hq)

/-- Helper: when the first occurrence of the Aux annotations key carries a
serialized volume with empty Name, decoding the property list fails with the
extraction error. -/
theorem findAnnotatedVolume_first_empty (pre : List ResDefProp) (v : VolumeInfo)
    (rest : List ResDefProp) (hpre : ∀ p ∈ pre, p.key ≠ "Aux/" ++ annotationsKey)
    (hname : v.name = "") :
    findAnnotatedVolume
        (pre ++ { key := "Aux/" ++ annotationsKey, value := PropValue.vol v } :: rest) =
      .error "Failed to extract resource name" := by
  induction pre with
  | nil => simp [findAnnotatedVolume, unmarshalVolumeInfo, hname]
  | cons p pre ih =>
    simp only [List.cons_append, findAnnotatedVolume]
    rw [if_neg (hpre p (List.mem_cons_self p pre))]
    exact ih fun q hq => hpre q (List.mem_cons_of_mem p hq)

/-- C8: decoding a resource definition whose properties lack the Aux
annotations key returns none with no error; when the key is present — first
at some position, preceded only by non-matching keys — and its deserialized
volume has an empty Name, decoding fails with the extraction error. -/
theorem c8_decode_absent_and_empty_name (resDef : ResDef) :
    ((∀ p ∈ resDef.rscDfnProps, p.key ≠ "Aux/" ++ annotationsKey) →
        resDefToVolume resDef = .ok none) ∧
    (∀ pre v rest,
        resDef.rscDfnProps =
            pre ++ { key := "Aux/" ++ annotationsKey, value := PropValue.vol v } :: rest →
        (∀ p ∈ pre, p.key ≠ "Aux/" ++ annotationsKey) →
        v.name = "" →
        resDefToVolume resDef = .error "Failed to extract resource name") := by
  constructor
  · intro h
    exact findAnnotatedVolume_none resDef.rscDfnProps h
  · intro pre v rest heq hpre hname
    show findAnnotatedVolume resDef.rscDfnProps = _
    rw [heq]
    exact findAnnotatedVolume_first_empty pre v rest hpre hname

/-- Concrete foreign resource definition (no annotations key) for the C8
witness. -/
def c8RdForeign : ResDef :=
  { rscName := "foreign", rscDfnProps := [{ key := "other", value := PropValue.raw "x" }] }

/-- Concrete empty-Name volume for the C8 witness. -/
def c8VolEmpty : VolumeInfo := { id := "i", name := "", sizeBytes := 0, parameters := [] }

/-- Concrete resource definition whose annotation deserializes to an
empty-Name volume, for the C8 witness. -/
def c8RdBad : ResDef :=
  { rscName := "bad",
    rscDfnProps := [{ key := "Aux/" ++ annotationsKey, value := PropValue.vol c8VolEmpty }] }

/-- Witness for C8: a foreign resource definition decodes to none, and one
whose annotation deserializes to an empty-Name volume decodes to the error. -/
theorem c8_witness :
    resDefToVolume c8RdForeign = Except.ok none ∧
      resDefToVolume c8RdBad = Except.error "Failed to extract resource name" :=
  ⟨(c8_decode_absent_and_empty_name c8RdForeign).1 (by decide),
   (c8_decode_absent_and_empty_name c8RdBad).2 [] c8VolEmpty [] rfl (by simp) rfl⟩

/-- C6: GetByName returns the first decoded volume whose Name equals the
query or the query behind the csi- fallback — every earlier listed resource
decoding without error to none or to a non-matching volume — and returns
none with no error when every listed resource decodes without error and
without matching. -/
theorem c6_getByName (name : String) :
    (∀ pre rd rest vol,
        (∀ rd' ∈ pre, ∃ r, resDefToVolume rd' = Except.ok r ∧
            ∀ v, r = some v → v.name ≠ name ∧ v.name ≠ fallbackPref ++ name) →
        resDefToVolume rd = Except.ok (some vol) →
        (vol.name = name ∨ vol.name = fallbackPref ++ name) →
        GetByName (pre ++ rd :: rest) name = Except.ok (some vol)) ∧
    (∀ list,
        (∀ rd ∈ list, ∃ r, resDefToVolume rd = Except.ok r ∧
            ∀ v, r = some v → v.name ≠ name ∧ v.name ≠ fallbackPref ++ name) →
        GetByName list name = Except.ok none) := by
  constructor
  · intro pre rd rest vol hpre hrd hmatch
    induction pre with
    | nil =>
      simp only [List.nil_append, GetByName, hrd]
      rcases hmatch with h | h
      · rw [if_pos h]
      · by_cases h0 : vol.name = name
        · rw [if_pos h0]
        · rw [if_neg h0, if_pos h]
    | cons q pre ih =>
      obtain ⟨r, hq, hnm⟩ := hpre q (List.mem_cons_self q pre)
      simp only [List.cons_append, GetByName, hq]
      cases r with
      | none => exact ih fun rd' h' => hpre rd' (List.mem_cons_of_mem q h')
      | some v =>
        obtain ⟨h1, h2⟩ := hnm v rfl
        simp only [if_neg h1, if_neg h2]
        exact ih fun rd' h' => hpre rd' (List.mem_cons_of_mem q h')
  · intro list hall
    induction list with
    | nil => rfl
    | cons rd rest ih =>
      obtain ⟨r, hrd, hnm⟩ := hall rd (List.mem_cons_self rd rest)
      simp only [GetByName, hrd]
      cases r with
      | none => exact ih fun rd' h' => hall rd' (List.mem_cons_of_mem rd h')
      | some v =>
        obtain ⟨h1, h2⟩ := hnm v rfl
        simp only [if_neg h1, if_neg h2]
        exact ih fun rd' h' => hall rd' (List.mem_cons_of_mem rd h')

/-- Concrete stored volume for the C6 witness, auto-renamed with the csi-
fallback at creation. -/
def c6Vol : VolumeInfo :=
  { id := "csi-myname", name := "csi-myname", sizeBytes := 4096, parameters := [] }

/-- Concrete backend resource definition carrying c6Vol. -/
def c6Rd : ResDef :=
  { rscName := "csi-myname",
    rscDfnProps := [{ key := "Aux/" ++ annotationsKey, value := PropValue.vol c6Vol }] }

/-- Witness for C6: the volume stored under the backend name csi-myname is
found by a GetByName query for myname through the fallback comparison. -/
theorem c6_witness : GetByName [c6Rd] "myname" = Except.ok (some c6Vol) :=
  (c6_getByName "myname").1 [] c6Rd [] c6Vol (by simp) (by rfl) (Or.inr (by rfl))

/-- C9: a resource definition without the annotations key (so it decodes to
none) whose backend name differs from the queried ID drives GetByID into the
nil dereference of the decoded volume as soon as the scan reaches it — the
branch is reachable — while GetByName skips such a foreign resource. -/
theorem c9_getByID_nilDeref (id : String) :
    (∀ pre rd rest,
        (∀ rd' ∈ pre, rd'.rscName ≠ id ∧
            ∃ v, resDefToVolume rd' = Except.ok (some v) ∧ v.id ≠ id) →
        (∀ p ∈ rd.rscDfnProps, p.key ≠ "Aux/" ++ annotationsKey) →
        rd.rscName ≠ id →
        GetByID (pre ++ rd :: rest) id = GetByIDResult.nilDeref) ∧
    (∀ rd rest name,
        (∀ p ∈ rd.rscDfnProps, p.key ≠ "Aux/" ++ annotationsKey) →
        GetByName (rd :: rest) name = GetByName rest name) := by
  constructor
  · intro pre rd rest hpre hforeign hrscName
    induction pre with
    | nil =>
      have hdec : resDefToVolume rd = .ok none :=
        findAnnotatedVolume_none rd.rscDfnProps hforeign
      simp only [List.nil_append, GetByID, hdec]
      rw [if_neg hrscName]
    | cons q pre ih =>
      obtain ⟨hq1, v, hq2, hq3⟩ := hpre q (List.mem_cons_self q pre)
      simp only [List.cons_append, GetByID, hq2]
      simp only [if_neg hq1, if_neg hq3]
      exact ih fun rd' h' => hpre rd' (List.mem_cons_of_mem q h')
  · intro rd rest name hforeign
    have hdec : resDefToVolume rd = .ok none :=
      findAnnotatedVolume_none rd.rscDfnProps hforeign
    simp only [GetByName, hdec]

/-- Witness for C9: a listing holding one foreign resource definition whose
name differs from the query makes GetByID reach the nil dereference. -/
theorem c9_witness :
    GetByID [{ rscName := "foreign", rscDfnProps := [] }] "someid" = GetByIDResult.nilDeref :=
  (c9_getByID_nilDeref "someid").1 [] { rscName := "foreign", rscDfnProps := [] } []
    (by simp) (by simp) (by decide)
